import Mathlib

/-!
Shallow embedding of `src/generate_pitch.py`, the comparable-companies
pitch-deck generator, together with theorems checking the claims of the
specification against it.

Modelling conventions:
* Python floats carried in the data frame are modelled by the `Cell` type:
  finite values are exact rationals, the non-finite floats `nan`, `inf` and
  `-inf` are explicit constructors, integer-typed cells (numpy int64, which is
  not a Python float) and text cells are separate constructors.
* `f"{v:.1f}"` formatting is modelled by `fmt1`, rounding half to even on the
  scaled value; every value formatted in the claims is exactly representable
  in tenths, where binary floating point and exact rational rounding agree.
* pandas and numpy operations are modelled by the functions named after the
  call sites; each carries a comment naming the source line it embeds.
-/

namespace IBPitch

/-- A cell of the loaded data frame.  `num` is a finite float, `nan`, `inf`
and `ninf` are the non-finite floats, `int` is an integer-typed cell and
`str` is a text cell. -/
inductive Cell where
  | num (q : ℚ)
  | nan
  | inf
  | ninf
  | int (n : ℤ)
  | str (s : String)
deriving DecidableEq, Repr

/-- Whether a cell is float-typed in Python: the `isinstance(val, float)`
test of `add_table` (line 66).  Finite and non-finite floats qualify;
integer-typed and text cells do not. -/
def isFloatCell : Cell → Bool
  | .num _ => true
  | .nan => true
  | .inf => true
  | .ninf => true
  | .int _ => false
  | .str _ => false

/-- A cell that the summarizer may see: anything except text.  Text cells
would make `astype(float)` parse or raise; the claims quantify over numeric
series only. -/
def isNumericCell : Cell → Bool
  | .str _ => false
  | _ => true

/-- Value of the decimal digit list, most significant first. -/
def digitsToNat (cs : List Char) : ℕ :=
  cs.foldl (fun a c => 10 * a + (c.toNat - 48)) 0

/-- Parse an unsigned decimal literal, integer part, optional dot, optional
fraction part, at least one digit overall.  Models the numeric-literal case
of Python float(). -/
def parseUnsigned? (cs : List Char) : Option ℚ :=
  let ip := cs.takeWhile Char.isDigit
  let rest := cs.dropWhile Char.isDigit
  match rest with
  | [] => if ip.isEmpty then none else some ((digitsToNat ip : ℚ))
  | '.' :: frac =>
    if frac.all Char.isDigit && (!ip.isEmpty || !frac.isEmpty) then
      some ((digitsToNat ip : ℚ) + (digitsToNat frac : ℚ) / (10 : ℚ) ^ frac.length)
    else none
  | _ => none

/-- Parse the part of a float literal after the optional sign, including the
special spellings of the non-finite floats, case-insensitively, as Python
float() accepts them. -/
def parseAfterSign? (neg : Bool) (cs : List Char) : Option Cell :=
  let low := cs.map Char.toLower
  if low == "inf".toList || low == "infinity".toList then
    some (if neg then Cell.ninf else Cell.inf)
  else if low == "nan".toList then some Cell.nan
  else (parseUnsigned? cs).map fun q => Cell.num (if neg then -q else q)

/-- Models Python float() applied to a string: optional sign, then a decimal
literal or a non-finite spelling; anything else fails.  Exponent notation
and surrounding whitespace are not modelled; no input of this pipeline uses
them. -/
def parseFloat? (s : String) : Option Cell :=
  match s.toList with
  | '-' :: rest => parseAfterSign? true rest
  | '+' :: rest => parseAfterSign? false rest
  | cs => parseAfterSign? false cs

/-- Models Python float(x) on a cell: floats pass through, integers convert
exactly, strings parse or fail.  A `none` result models the raised
exception. -/
def floatOfCell? : Cell → Option Cell
  | .num q => some (.num q)
  | .nan => some .nan
  | .inf => some .inf
  | .ninf => some .ninf
  | .int n => some (.num (n : ℚ))
  | .str s => parseFloat? s

/-- Division of a float cell by 1000; non-finite floats are unchanged, as in
float arithmetic. -/
def divBy1000 : Cell → Cell
  | .num q => .num (q / 1000)
  | c => c

/-- Embeds `scale_to_bn` (lines 9-13): `float(x_m)/1000.0` under
`try`, returning the input unchanged when the conversion raises. -/
def scale_to_bn (x : Cell) : Cell :=
  match floatOfCell? x with
  | some f => divBy1000 f
  | none => x

/-- Display-format category of a column, per the name matching of
`add_table` (lines 66-74). -/
inductive FormatCat where
  | percentage
  | multiple
  | plainDecimal
deriving DecidableEq, Repr

/-- Whether `pat` is a leading run of `hay`. -/
def leadEq : List Char → List Char → Bool
  | [], _ => true
  | _ :: _, [] => false
  | a :: as, b :: bs => a == b && leadEq as bs

/-- Whether `pat` occurs contiguously inside `hay`. -/
def hasSubList (pat : List Char) : List Char → Bool
  | [] => pat.isEmpty
  | b :: bs => leadEq pat (b :: bs) || hasSubList pat bs

/-- Python substring containment `pat in hay`. -/
def strContains (hay pat : String) : Bool :=
  hasSubList pat.toList hay.toList

/-- The percentage test of `add_table` line 67: the column name contains
Margin or Growth. -/
def percCond (name : String) : Bool :=
  strContains name "Margin" || strContains name "Growth"

/-- The multiple test of `add_table` line 69: the column name contains
EV/EBITDA, EV_EBITDA or P/E, or equals PE. -/
def multCond (name : String) : Bool :=
  strContains name "EV/EBITDA" || strContains name "EV_EBITDA" ||
    strContains name "P/E" || (name == "PE")

/-- Format category of a column name: the branch order of `add_table`
(lines 67-72), percentage first, then multiple, then plain decimal. -/
def formatCat (name : String) : FormatCat :=
  if percCond name then .percentage
  else if multCond name then .multiple
  else .plainDecimal

/-- Suffix appended by each format branch of `add_table`. -/
def catSuffix : FormatCat → String
  | .percentage => "%"
  | .multiple => "x"
  | .plainDecimal => ""

/-- Round to the nearest integer, half to even, the rounding of printf-style
float formatting on exactly representable values.  `Rat.floor` is used
rather than the floor of the `FloorRing` instance so that the function
evaluates inside the kernel. -/
def roundHalfEven (x : ℚ) : ℤ :=
  if x - Rat.floor x < 1 / 2 then Rat.floor x
  else if 1 / 2 < x - Rat.floor x then Rat.floor x + 1
  else if Rat.floor x % 2 = 0 then Rat.floor x
  else Rat.floor x + 1

/-- Digits of a nonnegative tenths count as a one-decimal literal. -/
def fmt1Nat (m : ℕ) : String :=
  toString (m / 10) ++ "." ++ toString (m % 10)

/-- Models `f"{q:.1f}"` on a finite float: one decimal place. -/
def fmt1 (q : ℚ) : String :=
  let n := roundHalfEven (q * 10)
  if n < 0 then "-" ++ fmt1Nat n.natAbs else fmt1Nat n.toNat

/-- The base text produced by `f"{val:.1f}"` for a float-typed cell, `none`
for cells that are not floats.  Python prints the non-finite floats as nan,
inf and -inf under this format. -/
def floatRepr1 : Cell → Option String
  | .num q => some (fmt1 q)
  | .nan => some "nan"
  | .inf => some "inf"
  | .ninf => some "-inf"
  | .int _ => none
  | .str _ => none

/-- Models Python str(val) for the cells that reach the else branch of
`add_table` line 74: integers print their decimal digits, text prints
itself.  Float cells never reach that branch; their clause here mirrors the
one-decimal repr and is unused by every theorem below. -/
def pyStr : Cell → String
  | .int n => toString n
  | .str s => s
  | .num q => fmt1 q
  | .nan => "nan"
  | .inf => "inf"
  | .ninf => "-inf"

/-- Embeds the cell-rendering of `add_table` (lines 62-74): float-typed
cells are formatted to one decimal with the suffix of the format category
of the column name; all other cells are rendered by str(val). -/
def renderCell (colName : String) (c : Cell) : String :=
  match floatRepr1 c with
  | some base => base ++ catSuffix (formatCat colName)
  | none => pyStr c

/-! ## Statistical summarizer, `add_val_summary` lines 88-103 -/

/-- The filter of `add_val_summary` lines 90-91 applied to a float series:
`.replace([np.inf, -np.inf], np.nan).dropna()` keeps exactly the finite
values. -/
def dropNonfinite (s : List Cell) : List ℚ :=
  s.filterMap fun c =>
    match c with
    | .num q => some q
    | _ => none

/-- Models `.astype(float)` on a series: every cell is converted by Python
float(); `none` models the exception raised when a text cell fails to
parse. -/
def astypeFloat? : List Cell → Option (List Cell)
  | [] => some []
  | c :: cs =>
    match floatOfCell? c, astypeFloat? cs with
    | some f, some fs => some (f :: fs)
    | _, _ => none

/-- The valid entries of a series: what survives the astype and the
non-finite filter.  Empty when the astype raises. -/
def validOf (s : List Cell) : List ℚ :=
  dropNonfinite ((astypeFloat? s).getD [])

/-- Ascending sort of the values, as numpy sorts before selecting order
statistics. -/
def sortQ (s : List ℚ) : List ℚ :=
  List.insertionSort (· ≤ ·) s

/-- Linear interpolation of a sorted sequence at fractional position `h`:
the value at index floor h plus the fractional part times the gap to the
next value, the interpolation rule of `np.percentile`.  Out-of-range
neighbour indices fall back on the floor-index value, which matches numpy
because the fractional part is zero exactly when `h` is the last index. -/
def interpAt (xs : List ℚ) (h : ℚ) : ℚ :=
  let k := (Rat.floor h).toNat
  let a := xs.getD k 0
  a + (h - (k : ℚ)) * (xs.getD (k + 1) a - a)

/-- Embeds `np.nanpercentile(s, p)` on a NaN-free series (lines 99-100):
sort, then linearly interpolate at position `(n - 1) * p / 100`. -/
def percentileQ (s : List ℚ) (p : ℚ) : ℚ :=
  interpAt (sortQ s) (((s.length : ℚ) - 1) * p / 100)

/-- Embeds `np.nanmedian(s)` on a NaN-free series (line 98): the middle
order statistic for odd length, the mean of the two middle order statistics
for even length. -/
def medianQ (s : List ℚ) : ℚ :=
  let xs := sortQ s
  let n := s.length
  if n % 2 = 1 then xs.getD (n / 2) 0
  else (xs.getD (n / 2 - 1) 0 + xs.getD (n / 2) 0) / 2

/-- Embeds the per-series body of `add_val_summary` (lines 90-101): astype
to float, drop non-finite values, then produce the nan triple for an empty
series and the median and 25th/75th percentiles otherwise.  The outer
`none` models the astype exception, which no numeric series triggers. -/
def seriesStats? (s : List Cell) : Option (Cell × Cell × Cell) :=
  (astypeFloat? s).map fun fs =>
    let v := dropNonfinite fs
    if v.isEmpty then (Cell.nan, Cell.nan, Cell.nan)
    else (Cell.num (medianQ v), Cell.num (percentileQ v 25), Cell.num (percentileQ v 75))

/-! ## Dataset rows and the bar-chart ordering, `main` lines 113-126 -/

/-- One row of the comps CSV, with the fixed column schema. -/
structure Row where
  company : String
  ticker : String
  sector : String
  ev_usd_m : Cell
  ebitda_usd_m : Cell
  ev_ebitda : Cell
  pe : Cell
  rev_growth : Cell
  ebitda_margin : Cell
deriving DecidableEq, Repr

/-- Sort bucket of a cell under the numpy ascending sort used by
`sort_values`: minus infinity first, finite values by magnitude, plus
infinity after them and nan placed last.  Text cells never occur in a float
column; they are ranked after everything for totality. -/
def cellRank : Cell → ℤ
  | .ninf => 0
  | .num _ => 1
  | .int _ => 1
  | .inf => 2
  | .nan => 3
  | .str _ => 4

/-- Numeric magnitude used to compare two finite cells. -/
def cellQ : Cell → ℚ
  | .num q => q
  | .int n => (n : ℚ)
  | _ => 0

/-- Ascending comparison of cells: by bucket, then by magnitude. -/
def cellKeyLe (c d : Cell) : Prop :=
  cellRank c < cellRank d ∨ (cellRank c = cellRank d ∧ cellQ c ≤ cellQ d)

instance : DecidableRel cellKeyLe := fun _ _ =>
  inferInstanceAs (Decidable (_ ∨ _ ∧ _))

/-- Row comparison keyed on the EV_EBITDA column, the sort key of `main`
line 119. -/
def rowLe (a b : Row) : Prop :=
  cellKeyLe a.ev_ebitda b.ev_ebitda

instance : DecidableRel rowLe := fun _ _ =>
  inferInstanceAs (Decidable (cellKeyLe _ _))

instance : IsTotal Row rowLe :=
  ⟨by
    intro a b
    rcases lt_trichotomy (cellRank a.ev_ebitda) (cellRank b.ev_ebitda) with h | h | h
    · exact Or.inl (Or.inl h)
    · rcases le_total (cellQ a.ev_ebitda) (cellQ b.ev_ebitda) with hq | hq
      · exact Or.inl (Or.inr ⟨h, hq⟩)
      · exact Or.inr (Or.inr ⟨h.symm, hq⟩)
    · exact Or.inr (Or.inl h)⟩

instance : IsTrans Row rowLe :=
  ⟨by
    intro a b c h1 h2
    simp only [rowLe, cellKeyLe] at h1 h2 ⊢
    rcases h1 with h1 | h1 <;> rcases h2 with h2 | h2
    · exact Or.inl (h1.trans h2)
    · exact Or.inl (lt_of_lt_of_eq h1 h2.1)
    · exact Or.inl (lt_of_eq_of_lt h1.1 h2)
    · exact Or.inr ⟨h1.1.trans h2.1, h1.2.trans h2.2⟩⟩

/-- Whether the sort key of a row is present: rows whose EV_EBITDA is NaN
are segregated by nargsort and handled by na_position. -/
def evNotNan (r : Row) : Bool :=
  decide (r.ev_ebitda ≠ Cell.nan)

/-- Embeds `df.sort_values("EV_EBITDA", ascending=False)` (line 119).
For a descending single-column sort, pandas nargsort (GH 6399, the stable
descending sort) reverses the non-NaN values and their indices, argsorts
them ascending (modelled as a stable sort, which is what the numpy
introsort performs on arrays of this size, where it runs plain insertion
sort), and reverses the resulting permutation back, so rows with equal
keys keep their original relative order; rows with a NaN key are appended
last in input order, the na_position default. -/
def sortValuesDescEV (ds : List Row) : List Row :=
  (List.insertionSort rowLe ((ds.filter evNotNan).reverse)).reverse ++
    ds.filter fun r => !evNotNan r

/-- The category sequence handed to the bar-chart renderer
(`build_bar_chart_ev_ebitda` line 17): company names in bar order. -/
def barCategories (ds : List Row) : List String :=
  (sortValuesDescEV ds).map fun r => r.company

/-- The value sequence handed to the bar-chart renderer: EV/EBITDA cells in
bar order. -/
def barValues (ds : List Row) : List Cell :=
  (sortValuesDescEV ds).map fun r => r.ev_ebitda

/-! ## Comparable-companies table, `main` lines 114-118 and `add_table` -/

/-- The projection list `cols` of `main` line 117. -/
def tableSelectCols : List String :=
  ["Company", "Ticker", "Sector", "EV_USD_bn", "EBITDA_USD_bn", "EV_EBITDA",
    "PE", "Rev_Growth_%", "EBITDA_Margin_%"]

/-- The rename mapping of `main` line 118: the two rescaled columns are
relabeled with their unit, every other label passes through. -/
def renameCol (s : String) : String :=
  if s = "EV_USD_bn" then "EV (USD bn)"
  else if s = "EBITDA_USD_bn" then "EBITDA (USD bn)"
  else s

/-- Header labels of the comparable-companies table. -/
def tableHeaders : List String :=
  tableSelectCols.map renameCol

/-- The display cells of one row, in the fixed column order of line 117;
the EV and EBITDA cells pass through `scale_to_bn` as in lines 115-116. -/
def rowDisplayCells (r : Row) : List Cell :=
  [.str r.company, .str r.ticker, .str r.sector, scale_to_bn r.ev_usd_m,
    scale_to_bn r.ebitda_usd_m, r.ev_ebitda, r.pe, r.rev_growth, r.ebitda_margin]

/-- A table content block: title, one header row, data rows. -/
structure TableBlock where
  title : String
  header : List String
  rows : List (List Cell)
deriving DecidableEq, Repr

/-- The comparable-companies table block built by `main` lines 114-118 and
rendered by `add_table` at line 135: one data row per dataset row, in input
order. -/
def compTable (ds : List Row) : TableBlock :=
  { title := "Comparable Companies Table"
    header := tableHeaders
    rows := ds.map rowDisplayCells }

/-! ## Takeaways bullet, `main` lines 130-134 -/

/-- View of a cell as the float it holds, for aggregation: integer cells
convert to their value, everything else is itself. -/
def asFloatCell : Cell → Cell
  | .int n => .num (n : ℚ)
  | c => c

/-- Drop the missing values of a series, the `skipna=True` default of the
pandas Series.median. -/
def dropNan (s : List Cell) : List Cell :=
  s.filter fun c => c ≠ Cell.nan

/-- Ascending sort of cells under the numpy ordering. -/
def sortCells (s : List Cell) : List Cell :=
  List.insertionSort cellKeyLe s

/-- Mean of two cells under float arithmetic: finite values average
exactly, an infinity dominates a finite value, and opposite infinities
give nan. -/
def avg2 : Cell → Cell → Cell
  | .num a, .num b => .num ((a + b) / 2)
  | .num _, .inf => .inf
  | .inf, .num _ => .inf
  | .num _, .ninf => .ninf
  | .ninf, .num _ => .ninf
  | .inf, .inf => .inf
  | .ninf, .ninf => .ninf
  | .ninf, .inf => .nan
  | .inf, .ninf => .nan
  | _, _ => .nan

/-- Embeds `df[col].median()` at line 131, the pandas Series median of a
float column: missing values are skipped per the skipna default, the
non-finite infinities take part, and the result is the middle value or the
mean of the two middle values. -/
def pandasMedian (s : List Cell) : Cell :=
  let v := sortCells (dropNan (s.map asFloatCell))
  let n := v.length
  if n = 0 then .nan
  else if n % 2 = 1 then v.getD (n / 2) .nan
  else avg2 (v.getD (n / 2 - 1) .nan) (v.getD (n / 2) .nan)

/-- Modelled from the spec: the takeaways bullet claims medians "over all
rows (no missing-value filtering at this step — median of the raw
column)".  This is that claimed statistic: the median over every value of
the column, missing values included, with nan placed after every other
value as the numpy sort does. -/
def specRawMedian (s : List Cell) : Cell :=
  let v := sortCells (s.map asFloatCell)
  let n := v.length
  if n = 0 then .nan
  else if n % 2 = 1 then v.getD (n / 2) .nan
  else avg2 (v.getD (n / 2 - 1) .nan) (v.getD (n / 2) .nan)

/-- One-decimal text of an aggregated float cell, as the f-string format
`:.1f` prints it. -/
def cellFmt1 (c : Cell) : String :=
  match floatRepr1 c with
  | some base => base
  | none => pyStr c

/-- Embeds the first takeaways bullet of `main` line 131. -/
def takeawayBullet (ds : List Row) : String :=
  "Median EV/EBITDA ≈ " ++ cellFmt1 (pandasMedian (ds.map fun r => r.ev_ebitda)) ++
    "x; P/E ≈ " ++ cellFmt1 (pandasMedian (ds.map fun r => r.pe)) ++ "x"

/-! ## Pipeline effect trace, `main` lines 113-145 -/

/-- The externally visible file-system effects of one run. -/
inductive Effect where
  | madeOutDir
  | wroteChart (name : String)
  | wroteDoc (path : String)
deriving DecidableEq, Repr

/-- The loaded data frame as the trace model sees it: only the column
names decide whether a column access raises. -/
structure RawFrame where
  cols : List String
deriving DecidableEq, Repr

/-- Embeds the effect order of `main` (lines 113-145).  Column accesses
happen in program order and a missing column raises before anything is
written: line 115 reads EV_USD_m, line 116 reads EBITDA_USD_m, line 118
projects onto `tableSelectCols` over the frame extended with the two
derived columns, and line 119 sorts on EV_EBITDA, which the projection has
already required.  Only then are the output directory created, the two
chart images written, the slides assembled in memory, and the document
saved last (line 144). -/
def mainTrace (f : RawFrame) (outPath : String) : List Effect × Except String Unit :=
  if "EV_USD_m" ∉ f.cols then ([], .error "KeyError: EV_USD_m")
  else if "EBITDA_USD_m" ∉ f.cols then ([], .error "KeyError: EBITDA_USD_m")
  else if ¬ (∀ c ∈ tableSelectCols, c ∈ f.cols ++ ["EV_USD_bn", "EBITDA_USD_bn"]) then
    ([], .error "KeyError: missing column in projection")
  else
    ([.madeOutDir, .wroteChart "ev_ebitda_chart.png", .wroteChart "pe_vs_growth.png",
      .wroteDoc outPath], .ok ())

/-- The columns the run reads from the loaded frame. -/
def requiredInputCols : List String :=
  ["Company", "Ticker", "Sector", "EV_USD_m", "EBITDA_USD_m", "EV_EBITDA",
    "PE", "Rev_Growth_%", "EBITDA_Margin_%"]

/-! ## Example data used by scenario theorems and witnesses -/

/-- Row A of the two-row scenario of the spec: EV/EBITDA 10.0, PE 20.0. -/
def scenarioRowA : Row :=
  ⟨"A", "AAA", "Software", Cell.int 5000, Cell.int 500, Cell.num 10,
    Cell.num 20, Cell.num 15, Cell.num 30⟩

/-- Row B of the two-row scenario of the spec: EV/EBITDA 20.0, PE 40.0. -/
def scenarioRowB : Row :=
  ⟨"B", "BBB", "Software", Cell.int 2000, Cell.int 100, Cell.num 20,
    Cell.num 40, Cell.num 5, Cell.num 10⟩

/-- The two-row scenario dataset of the spec. -/
def scenarioDs : List Row :=
  [scenarioRowA, scenarioRowB]

/-- Two rows with equal EV/EBITDA, to probe tie handling of the bar sort. -/
def tieRowA : Row :=
  ⟨"A", "AAA", "Software", Cell.int 5000, Cell.int 500, Cell.num 10,
    Cell.num 20, Cell.num 15, Cell.num 30⟩

/-- Second row of the tie dataset, same EV/EBITDA as the first. -/
def tieRowB : Row :=
  ⟨"B", "BBB", "Software", Cell.int 2000, Cell.int 100, Cell.num 10,
    Cell.num 40, Cell.num 5, Cell.num 10⟩

/-- Tie dataset: input order A then B, EV/EBITDA equal. -/
def tieDs : List Row :=
  [tieRowA, tieRowB]

/-- A five-row dataset whose EV_EBITDA column is [10, nan, nan, nan, 20]
and whose PE column is [20, 30, 40, 50, 60]. -/
def nanDs : List Row :=
  [⟨"A", "AAA", "Software", Cell.int 1, Cell.int 1, Cell.num 10, Cell.num 20,
      Cell.num 1, Cell.num 1⟩,
    ⟨"B", "BBB", "Software", Cell.int 1, Cell.int 1, Cell.nan, Cell.num 30,
      Cell.num 1, Cell.num 1⟩,
    ⟨"C", "CCC", "Software", Cell.int 1, Cell.int 1, Cell.nan, Cell.num 40,
      Cell.num 1, Cell.num 1⟩,
    ⟨"D", "DDD", "Software", Cell.int 1, Cell.int 1, Cell.nan, Cell.num 50,
      Cell.num 1, Cell.num 1⟩,
    ⟨"E", "EEE", "Software", Cell.int 1, Cell.int 1, Cell.num 20, Cell.num 60,
      Cell.num 1, Cell.num 1⟩]

/-- A frame with every required column except PE. -/
def frameNoPE : RawFrame :=
  ⟨["Company", "Ticker", "Sector", "EV_USD_m", "EBITDA_USD_m", "EV_EBITDA",
      "Rev_Growth_%", "EBITDA_Margin_%"]⟩

/-! ## Theorems -/

/-- Bridge from the executable floor to the floor of the order structure. -/
theorem ratFloor_eq_floor (q : ℚ) : Rat.floor q = ⌊q⌋ := by
  rw [Rat.floor_def', ← Rat.floor_def]

/-- Claim C5: format-category assignment is a pure function of the column
name with fixed match order: the percentage patterns Margin and Growth are
checked first, then the multiple patterns EV/EBITDA, EV_EBITDA, P/E and
the exact name PE, and any other name falls to plain decimal; a float cell
is rendered with exactly the suffix of that single category. -/
theorem C5_format_category_rules :
    ∀ name : String,
      ((strContains name "Margin" = true ∨ strContains name "Growth" = true) →
        formatCat name = FormatCat.percentage) ∧
      (¬(strContains name "Margin" = true ∨ strContains name "Growth" = true) →
        (strContains name "EV/EBITDA" = true ∨ strContains name "EV_EBITDA" = true ∨
          strContains name "P/E" = true ∨ name = "PE") →
        formatCat name = FormatCat.multiple) ∧
      (¬(strContains name "Margin" = true ∨ strContains name "Growth" = true) →
        ¬(strContains name "EV/EBITDA" = true ∨ strContains name "EV_EBITDA" = true ∨
          strContains name "P/E" = true ∨ name = "PE") →
        formatCat name = FormatCat.plainDecimal) ∧
      (∀ (c : Cell) (b : String), floatRepr1 c = some b →
        renderCell name c = b ++ catSuffix (formatCat name)) := by
  intro name
  have hp : percCond name = true ↔
      (strContains name "Margin" = true ∨ strContains name "Growth" = true) := by
    simp [percCond]
  have hm : multCond name = true ↔
      (strContains name "EV/EBITDA" = true ∨ strContains name "EV_EBITDA" = true ∨
        strContains name "P/E" = true ∨ name = "PE") := by
    simp [multCond, or_assoc]
  refine ⟨?_, ?_, ?_, ?_⟩
  · intro h
    simp only [formatCat]
    rw [if_pos (hp.mpr h)]
  · intro h1 h2
    simp only [formatCat]
    rw [if_neg (fun hc => h1 (hp.mp hc)), if_pos (hm.mpr h2)]
  · intro h1 h2
    simp only [formatCat]
    rw [if_neg (fun hc => h1 (hp.mp hc)), if_neg (fun hc => h2 (hm.mp hc))]
  · intro c b hb
    simp [renderCell, hb]

/-- Witness for C5 at the concrete names of the pipeline. -/
theorem C5_format_category_rules_witness :
    formatCat "EBITDA_Margin_%" = FormatCat.percentage ∧
      formatCat "PE" = FormatCat.multiple ∧
      formatCat "Company" = FormatCat.plainDecimal :=
  ⟨(C5_format_category_rules "EBITDA_Margin_%").1 (Or.inl (by decide)),
    (C5_format_category_rules "PE").2.1 (by decide) (Or.inr (Or.inr (Or.inr rfl))),
    (C5_format_category_rules "Company").2.2.1 (by decide) (by decide)⟩

/-- Claim C7: the unit scaler divides numeric input by 1000 and passes
non-numeric input through unchanged; in particular the text N/A survives
unchanged. -/
theorem C7_scaler_passthrough :
    (∀ q : ℚ, scale_to_bn (Cell.num q) = Cell.num (q / 1000)) ∧
    (∀ s : String, parseFloat? s = none → scale_to_bn (Cell.str s) = Cell.str s) ∧
    scale_to_bn (Cell.str "N/A") = Cell.str "N/A" := by
  refine ⟨fun q => rfl, fun s h => ?_, by decide⟩
  simp [scale_to_bn, floatOfCell?, h]

/-- Witness for C7 at concrete inputs. -/
theorem C7_scaler_passthrough_witness :
    scale_to_bn (Cell.num 2500) = Cell.num (2500 / 1000) ∧
      scale_to_bn (Cell.str "N/A") = Cell.str "N/A" :=
  ⟨C7_scaler_passthrough.1 2500, C7_scaler_passthrough.2.1 "N/A" (by decide)⟩

/-- Claim C10: cells that are not float-typed are rendered by plain string
conversion, independent of the column and so of its format category; the
per-category formatting applies only to float-typed cells. -/
theorem C10_nonfloat_rendered_verbatim :
    (∀ (name : String) (c : Cell), floatRepr1 c = none → renderCell name c = pyStr c) ∧
    (∀ (name : String) (n : ℤ), renderCell name (Cell.int n) = toString n) ∧
    (∀ (name s : String), renderCell name (Cell.str s) = s) ∧
    (∀ (n1 n2 : String) (c : Cell), floatRepr1 c = none →
      renderCell n1 c = renderCell n2 c) ∧
    (∀ c : Cell, floatRepr1 c = none ↔ isFloatCell c = false) := by
  refine ⟨fun name c h => by simp [renderCell, h], fun name n => rfl,
    fun name s => rfl, fun n1 n2 c h => by simp [renderCell, h],
    fun c => by cases c <;> simp [floatRepr1, isFloatCell]⟩

/-- Witness for C10 at concrete cells. -/
theorem C10_nonfloat_rendered_verbatim_witness :
    renderCell "EV_EBITDA" (Cell.str "N/A") = pyStr (Cell.str "N/A") ∧
      renderCell "PE" (Cell.int 7) = toString (7 : ℤ) :=
  ⟨C10_nonfloat_rendered_verbatim.1 "EV_EBITDA" (Cell.str "N/A") rfl,
    C10_nonfloat_rendered_verbatim.2.1 "PE" 7⟩

/-- Python float() succeeds on every non-text cell and yields its float
view. -/
theorem floatOfCell?_numeric {c : Cell} (h : isNumericCell c = true) :
    floatOfCell? c = some (asFloatCell c) := by
  cases c <;> simp_all [isNumericCell, floatOfCell?, asFloatCell]

/-- astype(float) on a series of non-text cells succeeds and maps each cell
to its float view. -/
theorem astypeFloat?_numeric {s : List Cell} (h : ∀ c ∈ s, isNumericCell c = true) :
    astypeFloat? s = some (s.map asFloatCell) := by
  induction s with
  | nil => rfl
  | cons c cs ih =>
    rw [List.map_cons]
    simp only [astypeFloat?]
    rw [floatOfCell?_numeric (h c (by simp)), ih fun x hx => h x (by simp [hx])]

/-- The non-finite filter keeps every plainly numeric value. -/
theorem dropNonfinite_map_num (l : List ℚ) : dropNonfinite (l.map Cell.num) = l := by
  induction l with
  | nil => rfl
  | cons q t ih => simpa [dropNonfinite, List.filterMap_cons] using ih

/-- Claim C1: the summarizer drops missing, NaN and infinite values first
and computes order statistics of what remains, so a series and its
filtered valid values summarize identically; on the scenario series
[10.0, NaN, inf, 20.0] the effective series is [10.0, 20.0] and the
median, 25th and 75th percentiles are 15.0, 12.5 and 17.5. -/
theorem C1_filter_then_interpolate :
    (∀ s : List Cell, (∀ c ∈ s, isNumericCell c = true) →
      seriesStats? s = seriesStats? ((validOf s).map Cell.num)) ∧
    validOf [Cell.num 10, Cell.nan, Cell.inf, Cell.num 20] = [10, 20] ∧
    seriesStats? [Cell.num 10, Cell.nan, Cell.inf, Cell.num 20] =
      some (Cell.num 15, Cell.num (25 / 2), Cell.num (35 / 2)) := by
  refine ⟨?_, by decide, ?_⟩
  · intro s h
    have ha := astypeFloat?_numeric h
    have hb : astypeFloat? ((validOf s).map Cell.num) =
        some ((validOf s).map Cell.num) := by
      rw [astypeFloat?_numeric fun c hc => by
        rcases List.mem_map.mp hc with ⟨q, _, rfl⟩; rfl]
      rw [List.map_map]
      rfl
    have h1 : dropNonfinite (s.map asFloatCell) = validOf s := by
      rw [validOf, ha]
      rfl
    have h2 : dropNonfinite ((validOf s).map Cell.num) = validOf s :=
      dropNonfinite_map_num _
    simp only [seriesStats?, ha, hb, Option.map_some', h1, h2]
  · norm_num [seriesStats?, astypeFloat?, floatOfCell?, dropNonfinite, medianQ,
      percentileQ, sortQ, interpAt, List.insertionSort, List.orderedInsert,
      List.filterMap, Rat.floor]
    exact fun h => Option.noConfusion h

/-- Witness for C1: a concrete series with a missing value summarizes like
its filtered values. -/
theorem C1_filter_then_interpolate_witness :
    seriesStats? [Cell.nan, Cell.num 3] =
      seriesStats? ((validOf [Cell.nan, Cell.num 3]).map Cell.num) :=
  C1_filter_then_interpolate.1 [Cell.nan, Cell.num 3] (by decide)

/-- Claim C2: a numeric series with no valid entries after filtering
summarizes to the undefined triple without raising; the undefined
statistic renders in the Valuation-Summary columns as the placeholder text
nan, never as a number. -/
theorem C2_empty_series_undefined (s : List Cell)
    (hnum : ∀ c ∈ s, isNumericCell c = true) (hempty : validOf s = []) :
    seriesStats? s = some (Cell.nan, Cell.nan, Cell.nan) ∧
    renderCell "Median (x)" Cell.nan = "nan" ∧
    renderCell "25th (x)" Cell.nan = "nan" ∧
    renderCell "75th (x)" Cell.nan = "nan" ∧
    (∀ q : ℚ, Cell.nan ≠ Cell.num q) := by
  refine ⟨?_, by decide, by decide, by decide, fun q h => Cell.noConfusion h⟩
  have ha := astypeFloat?_numeric hnum
  have hv : dropNonfinite (s.map asFloatCell) = [] := by
    rw [validOf, ha] at hempty
    exact hempty
  simp [seriesStats?, ha, hv]

/-- Witness for C2 at a concrete series of one infinity and one NaN. -/
theorem C2_empty_series_undefined_witness :
    seriesStats? [Cell.inf, Cell.nan] = some (Cell.nan, Cell.nan, Cell.nan) ∧
      renderCell "Median (x)" Cell.nan = "nan" := by
  have h := C2_empty_series_undefined [Cell.inf, Cell.nan] (by decide) (by decide)
  exact ⟨h.1, h.2.1⟩

/-- Claim C8: the comparable-companies table block has one data row per
dataset row plus the single header row, the header is the fixed
nine-column order, and the two rescaled columns are relabeled with their
unit. -/
theorem C8_table_shape (ds : List Row) :
    (compTable ds).rows.length = ds.length ∧
    (compTable ds).header = ["Company", "Ticker", "Sector", "EV (USD bn)",
      "EBITDA (USD bn)", "EV_EBITDA", "PE", "Rev_Growth_%", "EBITDA_Margin_%"] ∧
    renameCol "EV_USD_bn" = "EV (USD bn)" ∧
    renameCol "EBITDA_USD_bn" = "EBITDA (USD bn)" ∧
    (∀ row ∈ (compTable ds).rows, row.length = 9) := by
  refine ⟨by simp [compTable], by show tableHeaders = _; decide, by decide, by decide, ?_⟩
  intro row hr
  rcases List.mem_map.mp hr with ⟨r, _, rfl⟩
  rfl

/-- Witness for C8 at the two-row scenario dataset. -/
theorem C8_table_shape_witness :
    (compTable scenarioDs).rows.length = scenarioDs.length ∧
      (rowDisplayCells scenarioRowA).length = 9 := by
  have h := C8_table_shape scenarioDs
  exact ⟨h.1, h.2.2.2.2 (rowDisplayCells scenarioRowA)
    (List.mem_map.mpr ⟨scenarioRowA, by simp [scenarioDs], rfl⟩)⟩

/-- Claim C9: a missing required column makes the run abort with an error
before any artifact is written, and a successful run writes the output
directory, the two charts and then the document last, so no document
exists on a fatal assembly failure. -/
theorem C9_missing_column_aborts_before_output :
    (∀ (f : RawFrame) (out c : String), c ∈ requiredInputCols → c ∉ f.cols →
      (mainTrace f out).1 = [] ∧ ∃ e, (mainTrace f out).2 = Except.error e) ∧
    (∀ (f : RawFrame) (out : String) (es : List Effect),
      mainTrace f out = (es, Except.ok ()) →
      es = [Effect.madeOutDir, Effect.wroteChart "ev_ebitda_chart.png",
        Effect.wroteChart "pe_vs_growth.png", Effect.wroteDoc out]) := by
  constructor
  · intro f out c hc hmiss
    by_cases h1 : "EV_USD_m" ∈ f.cols
    · by_cases h2 : "EBITDA_USD_m" ∈ f.cols
      · simp only [requiredInputCols, List.mem_cons, List.not_mem_nil, or_false] at hc
        have key : c ∈ tableSelectCols ∧
            c ∉ (["EV_USD_bn", "EBITDA_USD_bn"] : List String) := by
          rcases hc with rfl | rfl | rfl | rfl | rfl | rfl | rfl | rfl | rfl
          · exact ⟨by decide, by decide⟩
          · exact ⟨by decide, by decide⟩
          · exact ⟨by decide, by decide⟩
          · exact absurd h1 hmiss
          · exact absurd h2 hmiss
          · exact ⟨by decide, by decide⟩
          · exact ⟨by decide, by decide⟩
          · exact ⟨by decide, by decide⟩
          · exact ⟨by decide, by decide⟩
        have hproj : ¬ (∀ x ∈ tableSelectCols,
            x ∈ f.cols ++ ["EV_USD_bn", "EBITDA_USD_bn"]) := by
          intro hall
          rcases List.mem_append.mp (hall c key.1) with hx | hx
          · exact hmiss hx
          · exact key.2 hx
        have ht : mainTrace f out =
            ([], .error "KeyError: missing column in projection") := by
          simp only [mainTrace]
          rw [if_neg (not_not_intro h1), if_neg (not_not_intro h2), if_pos hproj]
        rw [ht]
        exact ⟨rfl, _, rfl⟩
      · have ht : mainTrace f out = ([], .error "KeyError: EBITDA_USD_m") := by
          simp [mainTrace, h1, h2]
        rw [ht]
        exact ⟨rfl, _, rfl⟩
    · have ht : mainTrace f out = ([], .error "KeyError: EV_USD_m") := by
        simp [mainTrace, h1]
      rw [ht]
      exact ⟨rfl, _, rfl⟩
  · intro f out es h
    simp only [mainTrace] at h
    split_ifs at h with ha hb hcn <;> simp at h
    exact h.symm

/-- Witness for C9: a frame lacking PE yields an error and an empty effect
trace. -/
theorem C9_missing_column_witness :
    (mainTrace frameNoPE "output/pitch_comps.pptx").1 = [] ∧
      ∃ e, (mainTrace frameNoPE "output/pitch_comps.pptx").2 = Except.error e :=
  C9_missing_column_aborts_before_output.1 frameNoPE "output/pitch_comps.pptx" "PE"
    (by decide) (by decide)

/-- The cell key order is reflexive. -/
theorem cellKeyLe_refl (c : Cell) : cellKeyLe c c :=
  Or.inr ⟨rfl, le_refl _⟩

/-- A filter that rejects everything the takeWhile keeps yields nothing on
the kept part. -/
theorem filter_takeWhile_nil {α : Type} (p q : α → Bool) (l : List α)
    (h : ∀ x ∈ l, q x = true → p x = false) : (l.takeWhile q).filter p = [] := by
  rw [List.filter_eq_nil_iff]
  intro x hx
  have h1 := List.mem_takeWhile_imp hx
  have h2 : x ∈ l := List.takeWhile_subset _ hx
  simp [h x h2 h1]

/-- When the filter finds nothing in the kept part, filtering the dropped
part is filtering the whole list. -/
theorem filter_dropWhile_eq {α : Type} (p q : α → Bool) (l : List α)
    (h : (l.takeWhile q).filter p = []) :
    (l.dropWhile q).filter p = l.filter p := by
  have hsplit := congrArg (List.filter p) (List.takeWhile_append_dropWhile q l)
  rw [List.filter_append, h, List.nil_append] at hsplit
  exact hsplit

/-- Inserting an element the filter rejects does not change the filtered
list. -/
theorem filter_orderedInsert_neg {α : Type} (r : α → α → Prop) [DecidableRel r]
    (p : α → Bool) (a : α) (l : List α) (ha : p a = false) :
    (l.orderedInsert r a).filter p = l.filter p := by
  rw [List.orderedInsert_eq_take_drop, List.filter_append,
    List.filter_cons_of_neg (by simp [ha]),
    ← List.filter_append, List.takeWhile_append_dropWhile]

/-- Inserting an element the filter keeps, into a list where everything
strictly beyond it is rejected by the filter, puts it at the head of the
filtered list. -/
theorem filter_orderedInsert_pos {α : Type} (r : α → α → Prop) [DecidableRel r]
    (p : α → Bool) (a : α) (l : List α) (ha : p a = true)
    (h : ∀ b ∈ l, ¬ r a b → p b = false) :
    (l.orderedInsert r a).filter p = a :: l.filter p := by
  have ht := filter_takeWhile_nil p (fun b => decide (¬ r a b)) l
    fun x hx hq => h x hx (of_decide_eq_true hq)
  rw [List.orderedInsert_eq_take_drop, List.filter_append, ht, List.nil_append,
    List.filter_cons_of_pos ha, filter_dropWhile_eq p _ l ht]

/-- The stable ascending sort preserves the relative order of the rows
with any one fixed EV/EBITDA value. -/
theorem filter_insertionSort_ev (v : Cell) :
    ∀ l : List Row,
      (List.insertionSort rowLe l).filter (fun r => decide (r.ev_ebitda = v)) =
        l.filter fun r => decide (r.ev_ebitda = v) := by
  intro l
  induction l with
  | nil => rfl
  | cons a t ih =>
    show (List.orderedInsert rowLe a (List.insertionSort rowLe t)).filter _ = _
    cases hpa : decide (a.ev_ebitda = v) with
    | false =>
      rw [filter_orderedInsert_neg rowLe _ a _ hpa, ih,
        List.filter_cons_of_neg (by simp [hpa])]
    | true =>
      have hcond : ∀ b ∈ List.insertionSort rowLe t, ¬ rowLe a b →
          (fun r => decide (r.ev_ebitda = v)) b = false := by
        intro b hb hnr
        apply decide_eq_false
        intro hbv
        apply hnr
        have hav : a.ev_ebitda = v := of_decide_eq_true hpa
        show cellKeyLe a.ev_ebitda b.ev_ebitda
        rw [hav, hbv]
        exact cellKeyLe_refl v
      rw [filter_orderedInsert_pos rowLe _ a _ hpa hcond, ih]
      simp [List.filter_cons, hpa]

/-- Filtering by a predicate that entails the first filter is the same as
filtering the original list. -/
theorem filter_filter_of_imp {α : Type} (p q : α → Bool) (l : List α)
    (h : ∀ x, p x = true → q x = true) : (l.filter q).filter p = l.filter p := by
  induction l with
  | nil => rfl
  | cons a t ih =>
    cases hq : q a
    · have hp : p a = false := by
        cases hpa : p a
        · rfl
        · rw [h a hpa] at hq
          cases hq
      simp [List.filter_cons, hq, hp, ih]
    · cases hp : p a <;> simp [List.filter_cons, hq, hp, ih]

/-- Claim C4: the bar ordering handed to the renderer is a descending sort
by the EV/EBITDA key and a permutation of the dataset, rows with any one
EV/EBITDA value keep their original relative input order (the sort is
stable), and the table rows preserve input order; on the tie dataset the
bar categories stay [A, B] and on the two-row scenario dataset they become
[B, A]. -/
theorem C4_bar_descending_stable (ds : List Row) :
    ((∀ r ∈ ds, r.ev_ebitda ≠ Cell.nan) →
      List.Pairwise (fun a b => rowLe b a) (sortValuesDescEV ds)) ∧
    List.Perm (sortValuesDescEV ds) ds ∧
    (∀ v : Cell, (sortValuesDescEV ds).filter (fun r => decide (r.ev_ebitda = v)) =
      ds.filter fun r => decide (r.ev_ebitda = v)) ∧
    (compTable ds).rows = ds.map rowDisplayCells ∧
    barCategories tieDs = ["A", "B"] ∧
    barCategories scenarioDs = ["B", "A"] := by
  refine ⟨?_, ?_, ?_, rfl, by decide, by decide⟩
  · intro hnn
    have hsuf : ds.filter (fun r => !evNotNan r) = [] := by
      rw [List.filter_eq_nil_iff]
      intro r hr
      simp [evNotNan, hnn r hr]
    have hself : ds.filter evNotNan = ds := by
      rw [List.filter_eq_self]
      intro r hr
      simp [evNotNan, hnn r hr]
    rw [sortValuesDescEV, hsuf, hself, List.append_nil, List.pairwise_reverse]
    exact List.sorted_insertionSort rowLe ds.reverse
  · have hpre : List.Perm
        ((List.insertionSort rowLe ((ds.filter evNotNan).reverse)).reverse)
        (ds.filter evNotNan) :=
      ((List.reverse_perm _).trans (List.perm_insertionSort _ _)).trans
        (List.reverse_perm _)
    exact (List.Perm.append_right _ hpre).trans (List.filter_append_perm _ _)
  · intro v
    rw [sortValuesDescEV, List.filter_append, List.filter_reverse,
      filter_insertionSort_ev, List.filter_reverse, List.reverse_reverse]
    by_cases hv : v = Cell.nan
    · subst hv
      have h1 : (ds.filter evNotNan).filter
          (fun r => decide (r.ev_ebitda = Cell.nan)) = [] := by
        rw [List.filter_eq_nil_iff]
        intro r hr
        have hm := (List.mem_filter.mp hr).2
        simp [evNotNan] at hm
        simp [hm]
      rw [h1, List.nil_append]
      refine filter_filter_of_imp _ _ ds fun x hx => ?_
      have hev : x.ev_ebitda = Cell.nan := of_decide_eq_true hx
      simp [evNotNan, hev]
    · have h2 : (ds.filter fun r => !evNotNan r).filter
          (fun r => decide (r.ev_ebitda = v)) = [] := by
        rw [List.filter_eq_nil_iff]
        intro r hr
        have hm := (List.mem_filter.mp hr).2
        have hev : r.ev_ebitda = Cell.nan := by
          simp [evNotNan] at hm
          exact hm
        rw [hev]
        simp
        exact fun h => hv h.symm
      rw [h2, List.append_nil]
      refine filter_filter_of_imp _ _ ds fun x hx => ?_
      have hev : x.ev_ebitda = v := of_decide_eq_true hx
      simp [evNotNan, hev]
      exact hv

/-- Witness for C4: the tie dataset has no missing keys, its bar ordering
is descending, and the tied rows keep their input order. -/
theorem C4_bar_descending_stable_witness :
    List.Pairwise (fun a b => rowLe b a) (sortValuesDescEV tieDs) ∧
      barCategories tieDs = ["A", "B"] :=
  ⟨(C4_bar_descending_stable tieDs).1 (by decide),
    (C4_bar_descending_stable tieDs).2.2.2.2.1⟩

/-- Rounding an integer value is the identity. -/
theorem roundHalfEven_intCast (n : ℤ) : roundHalfEven ((n : ℚ)) = n := by
  simp only [roundHalfEven, ratFloor_eq_floor, Int.floor_intCast, sub_self]
  norm_num

/-- One-decimal formatting of a value that is an exact number of tenths. -/
theorem fmt1_intTenths (q : ℚ) (n : ℤ) (h : q * 10 = (n : ℚ)) :
    fmt1 q = if n < 0 then "-" ++ fmt1Nat n.natAbs else fmt1Nat n.toNat := by
  simp only [fmt1, h, roundHalfEven_intCast]

/-- Claim C6 counterexample: on a five-row dataset whose EV_EBITDA column
is [10, NaN, NaN, NaN, 20] the bullet prints 15.0x, the median of the
values left after the library skips the missing entries, while the median
over all rows with no missing-value filtering, as the claim demands, is
NaN; so the bullet median is not the unfiltered raw-column median. -/
theorem C6_raw_median_counterexample :
    pandasMedian (nanDs.map fun r => r.ev_ebitda) = Cell.num 15 ∧
    specRawMedian (nanDs.map fun r => r.ev_ebitda) = Cell.nan ∧
    takeawayBullet nanDs = "Median EV/EBITDA ≈ 15.0x; P/E ≈ 40.0x" ∧
    Cell.num 15 ≠ Cell.nan := by
  have hev : pandasMedian (nanDs.map fun r => r.ev_ebitda) = Cell.num 15 := by
    show pandasMedian [Cell.num 10, Cell.nan, Cell.nan, Cell.nan, Cell.num 20] =
      Cell.num 15
    norm_num [pandasMedian, dropNan, sortCells, asFloatCell, List.insertionSort,
      List.orderedInsert, cellKeyLe, cellRank, cellQ, avg2, List.filter_cons]
  have hpe : pandasMedian (nanDs.map fun r => r.pe) = Cell.num 40 := by
    show pandasMedian [Cell.num 20, Cell.num 30, Cell.num 40, Cell.num 50,
      Cell.num 60] = Cell.num 40
    norm_num [pandasMedian, dropNan, sortCells, asFloatCell, List.insertionSort,
      List.orderedInsert, cellKeyLe, cellRank, cellQ, avg2, List.filter_cons]
  have hf15 : cellFmt1 (Cell.num 15) = "15.0" := by
    show fmt1 15 = "15.0"
    rw [fmt1_intTenths 15 150 (by norm_num)]
    decide
  have hf40 : cellFmt1 (Cell.num 40) = "40.0" := by
    show fmt1 40 = "40.0"
    rw [fmt1_intTenths 40 400 (by norm_num)]
    decide
  refine ⟨hev, by decide, ?_, by decide⟩
  rw [takeawayBullet, hev, hpe, hf15, hf40]
  decide

/-- Claim C6 amended: the takeaway medians are the pandas column medians,
which skip missing values per the library default but keep infinities,
unlike the Valuation-Summary filter which drops both; on the two-row
scenario the bullet reads exactly as the spec says. -/
theorem C6_takeaway_median_skipna_keeps_inf :
    takeawayBullet scenarioDs = "Median EV/EBITDA ≈ 15.0x; P/E ≈ 30.0x" ∧
    pandasMedian [Cell.num 10, Cell.nan, Cell.num 20] = Cell.num 15 ∧
    pandasMedian [Cell.num 10, Cell.inf] = Cell.inf ∧
    validOf [Cell.num 10, Cell.inf] = [10] := by
  have hev : pandasMedian (scenarioDs.map fun r => r.ev_ebitda) = Cell.num 15 := by
    show pandasMedian [Cell.num 10, Cell.num 20] = Cell.num 15
    norm_num [pandasMedian, dropNan, sortCells, asFloatCell, List.insertionSort,
      List.orderedInsert, cellKeyLe, cellRank, cellQ, avg2, List.filter_cons]
  have hpe : pandasMedian (scenarioDs.map fun r => r.pe) = Cell.num 30 := by
    show pandasMedian [Cell.num 20, Cell.num 40] = Cell.num 30
    norm_num [pandasMedian, dropNan, sortCells, asFloatCell, List.insertionSort,
      List.orderedInsert, cellKeyLe, cellRank, cellQ, avg2, List.filter_cons]
  have hf15 : cellFmt1 (Cell.num 15) = "15.0" := by
    show fmt1 15 = "15.0"
    rw [fmt1_intTenths 15 150 (by norm_num)]
    decide
  have hf30 : cellFmt1 (Cell.num 30) = "30.0" := by
    show fmt1 30 = "30.0"
    rw [fmt1_intTenths 30 300 (by norm_num)]
    decide
  refine ⟨?_, ?_, by decide, by decide⟩
  · rw [takeawayBullet, hev, hpe, hf15, hf30]
    decide
  · norm_num [pandasMedian, dropNan, sortCells, asFloatCell, List.insertionSort,
      List.orderedInsert, cellKeyLe, cellRank, cellQ, avg2, List.filter_cons]

/-- Sorting preserves length. -/
theorem length_sortQ (s : List ℚ) : (sortQ s).length = s.length :=
  (List.perm_insertionSort _ s).length_eq

/-- The sorted values are sorted. -/
theorem sorted_sortQ (s : List ℚ) : (sortQ s).Sorted (· ≤ ·) :=
  List.sorted_insertionSort _ s

/-- The index kept by `interpAt` is the natural floor of the position. -/
theorem ratFloor_toNat (h : ℚ) : (Rat.floor h).toNat = ⌊h⌋₊ := by
  rw [ratFloor_eq_floor, Int.floor_toNat]

/-- Closed form of `interpAt` through the natural floor. -/
theorem interpAt_eq (xs : List ℚ) (h : ℚ) :
    interpAt xs h = xs.getD ⌊h⌋₊ 0 +
      (h - (⌊h⌋₊ : ℚ)) * (xs.getD (⌊h⌋₊ + 1) (xs.getD ⌊h⌋₊ 0) - xs.getD ⌊h⌋₊ 0) := by
  simp only [interpAt, ratFloor_toNat]

/-- In a sorted list the entry at a smaller index is at most the entry at a
larger in-range index. -/
theorem sorted_getD_mono {xs : List ℚ} (hs : xs.Sorted (· ≤ ·)) {i j : ℕ}
    (hij : i ≤ j) (hj : j < xs.length) : xs.getD i 0 ≤ xs.getD j 0 := by
  rw [List.getD_eq_get _ _ (lt_of_le_of_lt hij hj), List.getD_eq_get _ _ hj]
  exact List.Sorted.rel_get_of_le hs (Fin.mk_le_mk.mpr hij)

/-- The interpolated value is at least the entry at the floor index. -/
theorem le_interpAt {xs : List ℚ} (hs : xs.Sorted (· ≤ ·)) {h : ℚ}
    (h0 : 0 ≤ h) (hk : ⌊h⌋₊ < xs.length) : xs.getD ⌊h⌋₊ 0 ≤ interpAt xs h := by
  rw [interpAt_eq]
  have ht : (0 : ℚ) ≤ h - (⌊h⌋₊ : ℚ) := sub_nonneg.mpr (Nat.floor_le h0)
  by_cases hk1 : ⌊h⌋₊ + 1 < xs.length
  · have hb : xs.getD (⌊h⌋₊ + 1) (xs.getD ⌊h⌋₊ 0) = xs.getD (⌊h⌋₊ + 1) 0 := by
      rw [List.getD_eq_get _ _ hk1, List.getD_eq_get _ _ hk1]
    have hab : xs.getD ⌊h⌋₊ 0 ≤ xs.getD (⌊h⌋₊ + 1) 0 :=
      sorted_getD_mono hs (Nat.le_succ _) hk1
    rw [hb]
    nlinarith [mul_nonneg ht (sub_nonneg.mpr hab)]
  · rw [List.getD_eq_default _ _ (by omega : xs.length ≤ ⌊h⌋₊ + 1)]
    simp

/-- The interpolated value is at most the entry after the floor index when
that entry exists. -/
theorem interpAt_le {xs : List ℚ} (hs : xs.Sorted (· ≤ ·)) {h : ℚ}
    (hk1 : ⌊h⌋₊ + 1 < xs.length) : interpAt xs h ≤ xs.getD (⌊h⌋₊ + 1) 0 := by
  rw [interpAt_eq]
  have ht : h - (⌊h⌋₊ : ℚ) < 1 := by
    have := Nat.lt_floor_add_one h
    linarith
  have hb : xs.getD (⌊h⌋₊ + 1) (xs.getD ⌊h⌋₊ 0) = xs.getD (⌊h⌋₊ + 1) 0 := by
    rw [List.getD_eq_get _ _ hk1, List.getD_eq_get _ _ hk1]
  have hab : xs.getD ⌊h⌋₊ 0 ≤ xs.getD (⌊h⌋₊ + 1) 0 :=
    sorted_getD_mono hs (Nat.le_succ _) hk1
  rw [hb]
  nlinarith [mul_nonneg (by linarith : (0 : ℚ) ≤ 1 - (h - (⌊h⌋₊ : ℚ)))
    (sub_nonneg.mpr hab)]

/-- Linear interpolation over a sorted list is monotone in the position, on
the index range of the list. -/
theorem interpAt_mono {xs : List ℚ} (hs : xs.Sorted (· ≤ ·)) {h1 h2 : ℚ}
    (h0 : 0 ≤ h1) (h12 : h1 ≤ h2) (hn : h2 ≤ (xs.length : ℚ) - 1) :
    interpAt xs h1 ≤ interpAt xs h2 := by
  have h02 : 0 ≤ h2 := le_trans h0 h12
  have hlen : xs.length ≠ 0 := by
    intro h0l
    rw [h0l] at hn
    norm_num at hn
    linarith
  have hcast : ((xs.length - 1 : ℕ) : ℚ) = (xs.length : ℚ) - 1 := by
    have : 1 ≤ xs.length := Nat.one_le_iff_ne_zero.mpr hlen
    push_cast [this]
    ring
  have hk2 : ⌊h2⌋₊ < xs.length := by
    have hmono := Nat.floor_mono (hcast ▸ hn : h2 ≤ ((xs.length - 1 : ℕ) : ℚ))
    rw [Nat.floor_natCast] at hmono
    omega
  have hk12 : ⌊h1⌋₊ ≤ ⌊h2⌋₊ := Nat.floor_mono h12
  rcases eq_or_lt_of_le hk12 with heq | hlt
  · by_cases hkk : ⌊h1⌋₊ + 1 < xs.length
    · rw [interpAt_eq, interpAt_eq, ← heq]
      have hb : xs.getD (⌊h1⌋₊ + 1) (xs.getD ⌊h1⌋₊ 0) = xs.getD (⌊h1⌋₊ + 1) 0 := by
        rw [List.getD_eq_get _ _ hkk, List.getD_eq_get _ _ hkk]
      have hab : xs.getD ⌊h1⌋₊ 0 ≤ xs.getD (⌊h1⌋₊ + 1) 0 :=
        sorted_getD_mono hs (Nat.le_succ _) hkk
      rw [hb]
      nlinarith [mul_le_mul_of_nonneg_right h12 (sub_nonneg.mpr hab)]
    · rw [interpAt_eq, interpAt_eq, ← heq,
        List.getD_eq_default _ _ (by omega : xs.length ≤ ⌊h1⌋₊ + 1)]
      simp
  · have hup : interpAt xs h1 ≤ xs.getD (⌊h1⌋₊ + 1) 0 :=
      interpAt_le hs (by omega)
    have hmid : xs.getD (⌊h1⌋₊ + 1) 0 ≤ xs.getD ⌊h2⌋₊ 0 :=
      sorted_getD_mono hs (by omega) hk2
    have hlow : xs.getD ⌊h2⌋₊ 0 ≤ interpAt xs h2 := le_interpAt hs h02 hk2
    linarith

/-- The percentile of a non-empty series is monotone in the requested
percentage. -/
theorem percentileQ_mono {s : List ℚ} (hne : s ≠ []) {p1 p2 : ℚ}
    (hp0 : 0 ≤ p1) (hp12 : p1 ≤ p2) (hp100 : p2 ≤ 100) :
    percentileQ s p1 ≤ percentileQ s p2 := by
  have hlen : 1 ≤ s.length := List.length_pos.mpr hne
  have hn1 : (0 : ℚ) ≤ (s.length : ℚ) - 1 := by
    have : (1 : ℚ) ≤ (s.length : ℚ) := by exact_mod_cast hlen
    linarith
  simp only [percentileQ]
  apply interpAt_mono (sorted_sortQ s)
  · positivity
  · have := mul_le_mul_of_nonneg_left hp12 hn1
    linarith
  · rw [length_sortQ, div_le_iff (by norm_num : (0:ℚ) < 100)]
    nlinarith [mul_le_mul_of_nonneg_left hp100 hn1]

/-- On a non-empty series the numpy median coincides with the 50th
percentile under linear interpolation. -/
theorem medianQ_eq_percentileQ50 {s : List ℚ} (hne : s ≠ []) :
    medianQ s = percentileQ s 50 := by
  have hlen : 1 ≤ s.length := List.length_pos.mpr hne
  simp only [medianQ, percentileQ]
  by_cases hpar : s.length % 2 = 1
  · obtain ⟨m, hm⟩ : ∃ m, s.length = 2 * m + 1 := ⟨s.length / 2, by omega⟩
    have hh : ((s.length : ℚ) - 1) * 50 / 100 = (m : ℚ) := by
      rw [hm]
      push_cast
      ring
    rw [if_pos hpar, hh, interpAt_eq, Nat.floor_natCast]
    have h2 : s.length / 2 = m := by omega
    simp [h2]
  · obtain ⟨m, hm⟩ : ∃ m, s.length = 2 * m + 2 := ⟨s.length / 2 - 1, by omega⟩
    have hh : ((s.length : ℚ) - 1) * 50 / 100 = (m : ℚ) + 1 / 2 := by
      rw [hm]
      push_cast
      ring
    have hfl : ⌊(m : ℚ) + 1 / 2⌋₊ = m := by
      rw [Nat.floor_eq_iff (by positivity)]
      constructor
      · linarith
      · linarith
    rw [if_neg hpar, hh, interpAt_eq, hfl]
    have hm1 : s.length / 2 - 1 = m := by omega
    have hm2 : s.length / 2 = m + 1 := by omega
    have hrange : m + 1 < (sortQ s).length := by
      rw [length_sortQ]
      omega
    have hget : (sortQ s).getD (m + 1) ((sortQ s).getD m 0) =
        (sortQ s).getD (m + 1) 0 := by
      rw [List.getD_eq_get _ _ hrange, List.getD_eq_get _ _ hrange]
    rw [hm1, hm2, hget]
    ring

/-- Claim C3: whenever the summarizer produces defined statistics for a
series, the 25th percentile is at most the median and the median is at
most the 75th percentile. -/
theorem C3_quartile_ordering (s : List Cell) (med p25 p75 : ℚ)
    (h : seriesStats? s = some (Cell.num med, Cell.num p25, Cell.num p75)) :
    p25 ≤ med ∧ med ≤ p75 := by
  rcases hast : astypeFloat? s with _ | fs
  · rw [seriesStats?, hast] at h
    simp at h
  · rw [seriesStats?, hast] at h
    simp only [Option.map_some'] at h
    by_cases hv : (dropNonfinite fs).isEmpty
    · rw [if_pos hv] at h
      simp at h
    · rw [if_neg hv] at h
      have hne : dropNonfinite fs ≠ [] := by
        simpa [List.isEmpty_iff] using hv
      obtain ⟨hmed, hp25, hp75⟩ : Cell.num (medianQ (dropNonfinite fs)) = Cell.num med ∧
          Cell.num (percentileQ (dropNonfinite fs) 25) = Cell.num p25 ∧
          Cell.num (percentileQ (dropNonfinite fs) 75) = Cell.num p75 := by
        simpa using h
      have hmed : medianQ (dropNonfinite fs) = med := by injection hmed
      have hp25 : percentileQ (dropNonfinite fs) 25 = p25 := by injection hp25
      have hp75 : percentileQ (dropNonfinite fs) 75 = p75 := by injection hp75
      subst hmed hp25 hp75
      constructor
      · rw [medianQ_eq_percentileQ50 hne]
        exact percentileQ_mono hne (by norm_num) (by norm_num) (by norm_num)
      · rw [medianQ_eq_percentileQ50 hne]
        exact percentileQ_mono hne (by norm_num) (by norm_num) (by norm_num)

/-- Witness for C3 at a concrete one-element series. -/
theorem C3_quartile_ordering_witness : ((10 : ℚ) ≤ 10) ∧ ((10 : ℚ) ≤ 10) :=
  C3_quartile_ordering [Cell.num 10] 10 10 10 (by
    norm_num [seriesStats?, astypeFloat?, floatOfCell?, dropNonfinite, medianQ,
      percentileQ, sortQ, interpAt, List.insertionSort, List.orderedInsert,
      List.filterMap, Rat.floor]
    exact fun h => Option.noConfusion h)

end IBPitch
